import Mathlib

/-!
Shallow embedding of the Excel AI Agent core (request interpretation,
action dispatch, aggregation, resolution, and fallback cascades).

Source layout:
* `openai-service.ts` (src/unnamed/part_000): the completion-service call
  `getOpenAIResponse` and the credential lookup `getApiKey`.
* `excel-service.ts` + `App.tsx` (src/unnamed/part_001): the Excel executors
  (`calculateAndInsertSum`, `sumSpecificColumns`, `sumIntoNextRow`,
  `writeValueToCell`, `createWorksheet`, `createPivotTable`) and the
  per-turn dispatcher `handleSend` with its ordered regex rules.

Modelling conventions:
* Excel cell values (`number | string | boolean | empty`) become `CellValue`.
* JS numbers are modelled by `JsNum`, an exact decimal (integer mantissa over
  a power of ten).  Every number this program manipulates is a finite decimal
  (cell literals, `parseFloat` results, and sums thereof), so the model is
  exact; `jsVal` maps a `JsNum` to its rational value for value-level
  statements.
* Text is `List Char`; the `/i` regex flag and the `toLowerCase` calls are
  modelled by mapping `Char.toLower` over the text.
* JS `parseFloat` is modelled by `parseFloatJs` (leading whitespace, optional
  sign, decimal digits with optional fraction and exponent; `NaN` is `none`;
  the `Infinity` literal is not modelled — no caller ever passes it).
* The spreadsheet access port is modelled as non-throwing for the per-turn
  dispatcher; the worksheet/pivot cascades, whose behaviour under thrown
  exceptions is what the spec claims, take explicit "this step throws"
  oracles instead.
-/

/-! ### Exact decimal numbers -/

/-- An exact JS decimal: value `m / 10 ^ e`. -/
structure JsNum where
  m : ℤ
  e : ℕ
deriving DecidableEq

/-- Integer literals are decimals with exponent 0. -/
instance (n : ℕ) : OfNat JsNum n := ⟨⟨n, 0⟩⟩

/-- `10 ^ k` over ℤ, by structural recursion (definitionally reducible). -/
def powTen : ℕ → ℤ
  | 0 => 1
  | k + 1 => 10 * powTen k

/-- `10 ^ k` over ℕ. -/
def powTenN : ℕ → ℕ
  | 0 => 1
  | k + 1 => 10 * powTenN k

/-- Exact addition of decimals (align to the larger exponent). -/
def jsAdd (a b : JsNum) : JsNum :=
  ⟨a.m * powTen (max a.e b.e - a.e) + b.m * powTen (max a.e b.e - b.e), max a.e b.e⟩

/-- JS `x !== 0` on a decimal: the value is zero iff the mantissa is. -/
def jsIsZero (a : JsNum) : Bool := a.m == 0

/-- The rational value of a decimal. -/
def jsVal (a : JsNum) : ℚ := (a.m : ℚ) / (10 : ℚ) ^ a.e

theorem powTen_val (k : ℕ) : (powTen k : ℚ) = (10 : ℚ) ^ k := by
  induction k with
  | zero => simp [powTen]
  | succ k ih =>
    push_cast [powTen, pow_succ, ih]
    ring

theorem jsVal_jsAdd (a b : JsNum) : jsVal (jsAdd a b) = jsVal a + jsVal b := by
  have h10 : ((10 : ℚ) ^ (max a.e b.e - a.e)) * (10 : ℚ) ^ a.e = (10 : ℚ) ^ (max a.e b.e) := by
    rw [← pow_add]
    congr 1
    omega
  have h10b : ((10 : ℚ) ^ (max a.e b.e - b.e)) * (10 : ℚ) ^ b.e = (10 : ℚ) ^ (max a.e b.e) := by
    rw [← pow_add]
    congr 1
    omega
  have hx : ((10 : ℚ) ^ a.e) ≠ 0 := by positivity
  have hy : ((10 : ℚ) ^ b.e) ≠ 0 := by positivity
  have hz : ((10 : ℚ) ^ (max a.e b.e)) ≠ 0 := by positivity
  simp only [jsVal, jsAdd]
  push_cast [powTen_val]
  rw [div_add_div _ _ hx hy, div_eq_div_iff hz (by positivity)]
  linear_combination ((a.m : ℚ) * (10 : ℚ) ^ b.e) * h10 + ((b.m : ℚ) * (10 : ℚ) ^ a.e) * h10b

theorem jsIsZero_iff (a : JsNum) : jsIsZero a = true ↔ jsVal a = 0 := by
  have h : ((10 : ℚ) ^ a.e) ≠ 0 := by positivity
  simp [jsIsZero, jsVal, div_eq_zero_iff, h]

/-- Excel cell scalar: `number | string | boolean | empty` (empty cells read
back as the empty string in the Office.js API; both coerce to 0 here). -/
inductive CellValue where
  | num (n : JsNum)
  | str (s : String)
  | boolean (b : Bool)
  | empty
deriving DecidableEq

/-- Shorthand: the character list of a string literal. -/
def chars (s : String) : List Char := s.data

/-- Numeric value of a list of decimal digit characters. -/
def digitsVal (ds : List Char) : ℕ :=
  ds.foldl (fun a c => a * 10 + (c.toNat - 48)) 0

/-- Model of JS `parseFloat`: skip leading whitespace, optional sign, then a
decimal literal `digits[.digits][(e|E)[sign]digits]`; at least one digit must
be present before the exponent; trailing garbage is ignored; `none` is `NaN`. -/
def parseFloatJs (s : String) : Option JsNum :=
  let cs := s.data.dropWhile Char.isWhitespace
  let sgn : ℤ × List Char :=
    match cs with
    | '-' :: t => (-1, t)
    | '+' :: t => (1, t)
    | _ => (1, cs)
  let cs1 := sgn.2
  let intD := cs1.takeWhile Char.isDigit
  let rest1 := cs1.drop intD.length
  let fracP : List Char × List Char :=
    match rest1 with
    | '.' :: t => (t.takeWhile Char.isDigit, t.dropWhile Char.isDigit)
    | _ => ([], rest1)
  let fracD := fracP.1
  let rest2 := fracP.2
  if intD.isEmpty && fracD.isEmpty then none
  else
    let mant : ℤ := sgn.1 * ((digitsVal intD * powTenN fracD.length + digitsVal fracD : ℕ) : ℤ)
    let withExp : JsNum :=
      match rest2 with
      | c :: t =>
        if c == 'e' || c == 'E' then
          let es : Bool × List Char :=
            match t with
            | '-' :: u => (true, u)
            | '+' :: u => (false, u)
            | _ => (false, t)
          let ed := es.2.takeWhile Char.isDigit
          if ed.isEmpty then ⟨mant, fracD.length⟩
          else if es.1 then ⟨mant, fracD.length + digitsVal ed⟩
          else ⟨mant * powTen (digitsVal ed), fracD.length⟩
        else ⟨mant, fracD.length⟩
      | [] => ⟨mant, fracD.length⟩
    some withExp

/-- One step of the summation loops shared by `calculateAndInsertSum`,
`sumSpecificColumns` and `sumIntoNextRow`:
`if typeof val === 'number' sum += val; else if typeof val === 'string'
{ const num = parseFloat(val); if (!isNaN(num)) sum += num; }`. -/
def addCell (acc : JsNum) (v : CellValue) : JsNum :=
  match v with
  | .num q => jsAdd acc q
  | .str s =>
    match parseFloatJs s with
    | some q => jsAdd acc q
    | none => acc
  | _ => acc

/-- The spec's abstract `sumCells`: fold the shared coercion over a cell list. -/
def sumCells (cells : List CellValue) : JsNum :=
  cells.foldl addCell 0

/-- The double loop of `calculateAndInsertSum` (all cells, row major). -/
def calcSelectionSum (values : List (List CellValue)) : JsNum :=
  values.foldl (fun acc row => row.foldl addCell acc) 0

/-- The per-column loop of `sumSpecificColumns` / the amount–cost special
case: rows 1.. of one column (header row skipped). -/
def colSumFromRow1 (values : List (List CellValue)) (col : ℕ) : JsNum :=
  (values.drop 1).foldl (fun acc row => addCell acc (row.getD col .empty)) 0

/-- The per-column loop of `sumIntoNextRow`: every row including row 0. -/
def nextRowColSum (values : List (List CellValue)) (col : ℕ) : JsNum :=
  values.foldl (fun acc row => addCell acc (row.getD col .empty)) 0

/-! ### String utilities (JS `toLowerCase`, `includes`, `toString`) -/

/-- `text` starts with `pat`. -/
def strStartsWith : List Char → List Char → Bool
  | _, [] => true
  | [], _ :: _ => false
  | c :: cs, d :: ds => c == d && strStartsWith cs ds

/-- JS `text.includes(pat)`: `pat` occurs as a contiguous substring. -/
def containsSub : List Char → List Char → Bool
  | [], pat => pat.isEmpty
  | c :: cs, pat => strStartsWith (c :: cs) pat || containsSub cs pat

/-- JS `toLowerCase`, restricted to the ASCII range the program uses. -/
def lowerChars (l : List Char) : List Char := l.map Char.toLower

/-- Decimal digit characters of a natural number (own fuel recursion so that
it reduces definitionally). -/
def natDigitsAux : ℕ → ℕ → List Char
  | 0, _ => []
  | fuel + 1, n =>
    if n < 10 then [Char.ofNat (48 + n)]
    else natDigitsAux fuel (n / 10) ++ [Char.ofNat (48 + n % 10)]

/-- Decimal string of a natural number. -/
def natStr (n : ℕ) : List Char := natDigitsAux (n + 1) n

/-- Strip factors of ten shared by the mantissa and the exponent, so that the
decimal prints in the canonical JS form. -/
def stripZeros : ℕ → ℕ → ℕ × ℕ
  | m, 0 => (m, 0)
  | m, e + 1 => if m % 10 == 0 then stripZeros (m / 10) e else (m, e + 1)

/-- JS `toString` on a (finite decimal) number. -/
def jsNumToString (a : JsNum) : List Char :=
  let p := stripZeros a.m.natAbs a.e
  let sgn : List Char := if a.m < 0 then ['-'] else []
  if p.2 = 0 then sgn ++ natStr p.1
  else
    let ip := p.1 / powTenN p.2
    let fp := p.1 % powTenN p.2
    let raw := List.replicate (p.2 - (natStr fp).length) '0' ++ natStr fp
    sgn ++ natStr ip ++ '.' :: raw

/-- JS `String(h)` / `h.toString()` on a cell value. -/
def cellStr : CellValue → List Char
  | .num q => jsNumToString q
  | .str s => s.data
  | .boolean b => if b then chars "true" else chars "false"
  | .empty => []

/-! ### Column resolver (`sumSpecificColumns`, lines 482–496) -/

/-- JS `Array.prototype.findIndex` on a list. -/
def findIdxA {α : Type} (p : α → Bool) : List α → Option ℕ
  | [] => none
  | h :: t => if p h then some 0 else (findIdxA p t).map (· + 1)

/-- Case-insensitive exact header match. -/
def exactMatchB (h : CellValue) (n : List Char) : Bool :=
  lowerChars (cellStr h) == lowerChars n

/-- Case-insensitive substring header match (`header.includes(requested)`). -/
def subMatchB (h : CellValue) (n : List Char) : Bool :=
  containsSub (lowerChars (cellStr h)) (lowerChars n)

/-- The column resolver of `sumSpecificColumns`: exact case-insensitive
equality first, then case-insensitive containment, leftmost match each time. -/
def findColumn (headers : List CellValue) (colName : List Char) : Option ℕ :=
  match findIdxA (fun h => exactMatchB h colName) headers with
  | some i => some i
  | none => findIdxA (fun h => subMatchB h colName) headers

/-! ### Selection snapshots and cell writes -/

/-- The properties `extractDataFromSelection` / the executors load from the
selected range (`values, rowIndex, columnIndex, rowCount, columnCount`).
`rowIndex`/`columnIndex` are the absolute 0-based origin of the selection. -/
structure Selection where
  values : List (List CellValue)
  rowIndex : ℕ
  columnIndex : ℕ
  rowCount : ℕ
  columnCount : ℕ
deriving DecidableEq

/-- One queued cell mutation on the active worksheet: absolute 0-based row
and column, the literal value written, and whether the `"0.00"` two-decimal
number format was applied. -/
structure CellWrite where
  row : ℕ
  col : ℕ
  value : JsNum
  twoDecimalFmt : Bool
deriving DecidableEq

/-- `calculateAndInsertSum` (no explicit target cell): sum every cell of the
selection and write it, with format `"0.00"`, to
`worksheet.getCell(rowIndex + rowCount, columnIndex)`.  The port is modelled
as non-throwing, so the action reports success. -/
def calcAndInsertSum (s : Selection) : Bool × List CellWrite :=
  (true, [⟨s.rowIndex + s.rowCount, s.columnIndex, calcSelectionSum s.values, true⟩])

/-- `sumSpecificColumns`: fails (no writes) unless the selection has at least
2 rows; otherwise resolves each requested name against the header row via
`findColumn`, skipping unresolved names, and for each resolved column writes
its rows-1.. sum at `(rowIndex + values.length, columnIndex + colIndex)` with
format `"0.00"`.  Success iff at least one name resolved. -/
def sumSpecificColumns (s : Selection) (columnNames : List (List Char)) :
    Bool × List CellWrite :=
  if s.values.length ≤ 1 then (false, [])
  else
    let headers := s.values.headD []
    columnNames.foldl
      (fun acc colName =>
        match findColumn headers colName with
        | some colIndex =>
          (true, acc.2 ++ [⟨s.rowIndex + s.values.length, s.columnIndex + colIndex,
            colSumFromRow1 s.values colIndex, true⟩])
        | none => acc)
      (false, [])

/-- The loop `if (header.includes(pat)) col = i` of the amount–cost special
case keeps the LAST matching index (no break).  Recursive re-expression. -/
def lastMatchIdx (p : CellValue → Bool) : List CellValue → Option ℕ
  | [] => none
  | h :: t =>
    match lastMatchIdx p t with
    | some j => some (j + 1)
    | none => if p h then some 0 else none

/-- Header lookup of the amount–cost special case:
`String(headers[i]).toLowerCase().includes(pat)`, last match wins. -/
def lastIdxContaining (headers : List CellValue) (pat : List Char) : Option ℕ :=
  lastMatchIdx (fun h => containsSub (lowerChars (cellStr h)) pat) headers

/-- The absolute column addressed by the overlay's write for an in-selection
column offset `col`.  The source builds the one-character column
`String.fromCharCode(65 + col)`: offsets 0–25 give `'A'..'Z'`; offsets 32–57
give `'a'..'z'`, which Excel's case-insensitive range addresses alias back
to columns 0–25 (so the write lands at `col - 32`); every other offset gives
a non-letter character (`'['`, backslash, …, or past `'z'`), `getRange`
throws inside `writeValueToCell`'s try, and that write reports failure with
nothing written (`none` here). -/
def overlayColTarget (col : ℕ) : Option ℕ :=
  if col ≤ 25 then some col
  else if 32 ≤ col ∧ col ≤ 57 then some (col - 32)
  else none

/-- The amount–cost special case of `handleSend` (lines 1108–1173): resolve
"amount" and "cost" against the header row by substring containment, sum
rows 1.. of each resolved column, and write each sum via `writeValueToCell`
to the A1-style address `String.fromCharCode(65 + col)` + `(rowCount + 1)` —
an ABSOLUTE address built only from the in-selection column index and the
selection's row count, i.e. 0-based cell `(rowCount, overlayColTarget col)`.
An offset whose address is not a letter makes that `writeValueToCell` call
throw and return false, performing no write (`overlayColTarget = none`).
`writeValueToCell` applies the `"0.00"` format since the value is a number.
Success iff at least one of the two writes succeeded
(`success1 || success2`). -/
def amountCostOverlay (s : Selection) : Bool × List CellWrite :=
  match s.values with
  | [] => (false, [])
  | headers :: _ =>
    let aCol := lastIdxContaining headers (chars "amount")
    let cCol := lastIdxContaining headers (chars "cost")
    let wsA : List CellWrite :=
      match aCol with
      | some a =>
        match overlayColTarget a with
        | some t => [⟨s.rowCount, t, colSumFromRow1 s.values a, true⟩]
        | none => []
      | none => []
    let wsC : List CellWrite :=
      match cCol with
      | some c =>
        match overlayColTarget c with
        | some t => [⟨s.rowCount, t, colSumFromRow1 s.values c, true⟩]
        | none => []
      | none => []
    (!(wsA.isEmpty && wsC.isEmpty), wsA ++ wsC)

/-- `sumIntoNextRow`: column-wise sums over ALL rows (header included), each
nonzero sum written with format `"0.00"` at
`(rowIndex + rowCount, columnIndex + col)`; zero sums write nothing.
An empty grid throws on `values[0].length` and reports failure. -/
def sumIntoNextRow (s : Selection) : Bool × List CellWrite :=
  match s.values with
  | [] => (false, [])
  | r0 :: _ =>
    let targetRow := s.rowIndex + s.rowCount
    (true,
      (List.range r0.length).filterMap fun c =>
        if jsIsZero (nextRowColSum s.values c) then none
        else some ⟨targetRow, s.columnIndex + c, nextRowColSum s.values c, true⟩)

/-! ### Word-boundary matching for the dispatcher's regexes

All rule predicates are regex `.test` calls of the shape
`\b(w1|w2|...)\b.*?\b(u1|u2|...)\b` with the `/i` flag (rules 3–4 use the
greedy `.*`, which accepts the same set of strings under `.test`).  `\w` is
`[A-Za-z0-9_]`; `.` does not match a newline, so the gap between the two
word groups may not cross `'\n'`, while the scan for the first group may
start anywhere. -/

/-- JS `\w`. -/
def isWordChar (c : Char) : Bool := c.isAlphanum || c == '_'

/-- `\bw\b` matches at the current position, where `prev` says whether the
character immediately before this position is a word character. -/
def wordAt (prev : Bool) (text w : List Char) : Bool :=
  !prev && strStartsWith text w &&
    (match text.drop w.length with
     | [] => true
     | c :: _ => !isWordChar c)

/-- Some word of `ws` matches at the current position or later, with no
newline consumed by the gap (`.*?`/`.*` cannot cross `'\n'`). -/
def searchWordNoNl (ws : List (List Char)) : Bool → List Char → Bool
  | prev, [] => ws.any (wordAt prev [])
  | prev, c :: cs =>
    ws.any (wordAt prev (c :: cs)) ||
      (!(c == '\n') && searchWordNoNl ws (isWordChar c) cs)

/-- `.test` of `\b(ws1)\b.*?\b(ws2)\b`: somewhere in the text a word of `ws1`
matches at a word boundary, followed (with no intervening newline) by a word
of `ws2` at a word boundary.  All words used are alphabetic, so the position
right after a `ws1` match is preceded by a word character. -/
def seqWordMatch (ws1 ws2 : List (List Char)) : Bool → List Char → Bool
  | _, [] => false
  | prev, c :: cs =>
    (ws1.any fun w =>
      wordAt prev (c :: cs) w && searchWordNoNl ws2 true ((c :: cs).drop w.length)) ||
      seqWordMatch ws1 ws2 (isWordChar c) cs

/-- Rule 1 (`handleSend` line 948):
`/\b(sum|add|total|calculate)\b.*?\b(column|row|cell|range|value|amount|cost|price|number|data)\b/i`. -/
def rule1Pred (l : List Char) : Bool :=
  seqWordMatch [chars "sum", chars "add", chars "total", chars "calculate"]
    [chars "column", chars "row", chars "cell", chars "range", chars "value",
     chars "amount", chars "cost", chars "price", chars "number", chars "data"]
    false l

/-- Rule 2 (line 965): `/\b(sum|add|total)\b.*?\b(column|columns)\b/i` or
`/\b(sum|add|total)\b.*?\b(amount|cost|price|value|total)\b/i`. -/
def rule2Pred (l : List Char) : Bool :=
  seqWordMatch [chars "sum", chars "add", chars "total"]
    [chars "column", chars "columns"] false l ||
  seqWordMatch [chars "sum", chars "add", chars "total"]
    [chars "amount", chars "cost", chars "price", chars "value", chars "total"] false l

/-- Rule 3 (line 1049): `/\b(create|make|build|generate)\b.*\b(pivot|pivot\s*table)\b/i`.
The second group accepts the word "pivot" (which also covers "pivot table",
"pivot" being boundary-terminated by the space) or the glued "pivottable"
(the `\s*`-with-zero-spaces alternative). -/
def rule3Pred (l : List Char) : Bool :=
  seqWordMatch [chars "create", chars "make", chars "build", chars "generate"]
    [chars "pivot", chars "pivottable"] false l

/-- Rule 4 (line 1066): `/\b(create|make|build|generate|plot)\b.*\b(chart|graph|plot)\b/i`. -/
def rule4Pred (l : List Char) : Bool :=
  seqWordMatch [chars "create", chars "make", chars "build", chars "generate", chars "plot"]
    [chars "chart", chars "graph", chars "plot"] false l

/-- Rule 5 (line 1084): `/\b(apply|use|add|create)\b.*\b(formula|function)\b/i`. -/
def rule5Pred (l : List Char) : Bool :=
  seqWordMatch [chars "apply", chars "use", chars "add", chars "create"]
    [chars "formula", chars "function"] false l

/-- Rule 6 predicate (line 1108, without the selection conjunct):
`input.toLowerCase().includes('amount') && input.toLowerCase().includes('cost')`. -/
def rule6Pred (l : List Char) : Bool :=
  containsSub l (chars "amount") && containsSub l (chars "cost")

/-- Rule 7 predicate (line 1176): `/\b(next|below|following)\b.*?\b(row|line)\b/i`
or a literal `"next row"` / `"row below"` substring of the lowercased input. -/
def rule7Pred (l : List Char) : Bool :=
  seqWordMatch [chars "next", chars "below", chars "following"]
    [chars "row", chars "line"] false l ||
  containsSub l (chars "next row") || containsSub l (chars "row below")

/-! ### The intent classifier: the two if/else chains of `handleSend` -/

/-- The action kinds of the first (mutually exclusive) rule chain, rules 1–5. -/
inductive PrimaryAction where
  | sumSelection | columnSum | pivotTable | chartAct | formulaAct
deriving DecidableEq

/-- The action kinds of the second chain, rules 6–7. -/
inductive OverlayAction where
  | amountCost | nextRow
deriving DecidableEq

/-- The first `if / else if` chain of `handleSend` (rules 1–5), viewed as a
classifier: which branch is taken.  Every branch condition conjoins its regex
test with `selectedData` being non-null. -/
def classifyPrimary (text : List Char) (hasSel : Bool) : Option PrimaryAction :=
  if rule1Pred (lowerChars text) && hasSel then some .sumSelection
  else if rule2Pred (lowerChars text) && hasSel then some .columnSum
  else if rule3Pred (lowerChars text) && hasSel then some .pivotTable
  else if rule4Pred (lowerChars text) && hasSel then some .chartAct
  else if rule5Pred (lowerChars text) && hasSel then some .formulaAct
  else none

/-- The second `if / else if` chain of `handleSend` (rules 6–7).  Rule 6
requires a selection; rule 7 is its `else if` and does NOT test the
selection. -/
def classifyOverlay (text : List Char) (hasSel : Bool) : Option OverlayAction :=
  if rule6Pred (lowerChars text) && hasSel then some .amountCost
  else if rule7Pred (lowerChars text) then some .nextRow
  else none

/-! ### Rule 2's column-name extraction (`handleSend` lines 971–1019)

The extraction is modelled on the lowercased text; the source scans the
original-case input and lowercases only when comparing (and its
`split(/,|and/)` is case-sensitive).  Every modelled output of a turn is
case-insensitive in these names (they are only fed to `sumSpecificColumns`,
which lowercases), so this collapse is observationally harmless except for a
mixed-case "And" separator, which no claim involves. -/

/-- The explicit keyword list of
`/\b(amount|cost|price|value|total|sales|revenue|profit|quantity)\b/gi`. -/
def kwList : List (List Char) :=
  [chars "amount", chars "cost", chars "price", chars "value", chars "total",
   chars "sales", chars "revenue", chars "profit", chars "quantity"]

/-- All word-bounded keyword occurrences, left to right (the `/g` loop).
Scanning every position is equivalent to resuming after each match: a next
match needs a word boundary, which cannot occur inside a matched keyword
(keywords are all alphabetic). -/
def scanKeywords : Bool → List Char → List (List Char)
  | _, [] => []
  | prev, c :: cs =>
    match kwList.find? (fun k => wordAt prev (c :: cs) k) with
    | some k => k :: scanKeywords (isWordChar c) cs
    | none => scanKeywords (isWordChar c) cs

/-- The character class `[\w\s,]` of the capture group. -/
def clsChar (c : Char) : Bool := isWordChar c || c.isWhitespace || c == ','

/-- `\s+([\w\s,]+)` at the current position: greedy whitespace, then a
nonempty class run; if the class run cannot start after all the whitespace,
the engine backtracks one whitespace character into the capture. -/
def matchWsCls (text : List Char) : Option (List Char) :=
  let ws := text.takeWhile Char.isWhitespace
  let rest := text.drop ws.length
  if ws.isEmpty then none
  else
    match rest with
    | c :: _ =>
      if clsChar c then some (rest.takeWhile clsChar)
      else if 2 ≤ ws.length then some (ws.drop (ws.length - 1)) else none
    | [] => if 2 ≤ ws.length then some (ws.drop (ws.length - 1)) else none

/-- `\b(column|columns)?\s+([\w\s,]+)` at the current position (`prev` is
whether the previous character is a word character): the boundary requires
exactly one side to be a word character; alternatives are tried in regex
order (`column`, `columns`, empty). -/
def matchTailAt (prev : Bool) (text : List Char) : Option (List Char) :=
  let headWord : Bool :=
    match text with
    | c :: _ => isWordChar c
    | [] => false
  if prev == headWord then none
  else
    match (if strStartsWith text (chars "column") then matchWsCls (text.drop 6) else none) with
    | some g => some g
    | none =>
      match (if strStartsWith text (chars "columns") then matchWsCls (text.drop 7) else none) with
      | some g => some g
      | none => matchWsCls text

/-- Lazy `.*?` search for the tail, never crossing a newline. -/
def searchTailFrom (prev : Bool) (text : List Char) : Option (List Char) :=
  match matchTailAt prev text with
  | some g => some g
  | none =>
    match text with
    | [] => none
    | c :: cs => if c == '\n' then none else searchTailFrom (isWordChar c) cs

/-- Capture group 3 of
`input.match(/\b(sum|add|total)\b.*?\b(column|columns)?\s+([\w\s,]+)/i)`:
scan for a word-bounded trigger; on a trigger whose tail completes, return
the capture, else keep scanning. -/
def extractColumnText (prev : Bool) (lower : List Char) : Option (List Char) :=
  match lower with
  | [] => none
  | c :: cs =>
    match
      ([chars "sum", chars "add", chars "total"].filterMap fun w =>
        if wordAt prev (c :: cs) w then searchTailFrom true ((c :: cs).drop w.length)
        else none).head? with
    | some g => some g
    | none => extractColumnText (isWordChar c) cs

/-- JS `columnText.split(/,|and/)`, accumulator-based. -/
def splitCommaAnd : List Char → List Char → List (List Char)
  | [], cur => [cur.reverse]
  | c :: cs, cur =>
    if c == ',' then cur.reverse :: splitCommaAnd cs []
    else if strStartsWith (c :: cs) (chars "and") then
      cur.reverse :: splitCommaAnd (cs.drop 2) []
    else splitCommaAnd cs (c :: cur)
termination_by l _ => l.length
decreasing_by
  all_goals simp [List.length_drop]
  all_goals omega

/-- JS `String.prototype.trim`. -/
def trimWs (l : List Char) : List Char :=
  ((l.dropWhile Char.isWhitespace).reverse.dropWhile Char.isWhitespace).reverse

/-- `typeof value === 'number' || (typeof value === 'string' && !isNaN(parseFloat(value)))`. -/
def numericCoercible : CellValue → Bool
  | .num _ => true
  | .str s => (parseFloatJs s).isSome
  | _ => false

/-- The `columnsToSum` computation of rule 2's branch: (a) explicit keywords
anywhere in the text; else (b) the tokens after the trigger phrase, split on
comma/"and" and trimmed; else (c) from the snapshot: all headers if there are
at most 3 columns, otherwise the headers of columns with at least one
numeric-coercible body value. -/
def extractColumnsToSum (lower : List Char) (s : Selection) : List (List Char) :=
  let step1 := scanKeywords false lower
  let step2 : List (List Char) :=
    if step1.isEmpty then
      match extractColumnText false lower with
      | some g => ((splitCommaAnd g []).map trimWs).filter (fun t => !t.isEmpty)
      | none => []
    else step1
  if step2.isEmpty then
    match s.values with
    | [] => []
    | headers :: _ =>
      if headers.length ≤ 3 then headers.map cellStr
      else
        (List.range headers.length).filterMap fun i =>
          if (s.values.drop 1).any (fun r => numericCoercible (r.getD i .empty)) then
            some (cellStr (headers.getD i .empty))
          else none
  else step2

/-! ### Rule 5's formula extraction (lines 1088–1089) -/

/-- The class `[A-Z0-9+\-*\/^()&<>=" ]` with `/i`. -/
def formulaChar (c : Char) : Bool :=
  c.isAlpha || c.isDigit ||
    ['+', '-', '*', '/', '^', '(', ')', '&', '<', '>', '=', '"', ' '].contains c

/-- `/=([A-Z]+\([^)]+\))/i` at the current position; the result is the whole
match `=NAME(args)`. -/
def tryFunCall (text : List Char) : Option (List Char) :=
  match text with
  | '=' :: rest =>
    let letters := rest.takeWhile Char.isAlpha
    if letters.isEmpty then none
    else
      match rest.drop letters.length with
      | '(' :: r2 =>
        let inner := r2.takeWhile (fun c => !(c == ')'))
        if inner.isEmpty then none
        else
          match r2.drop inner.length with
          | ')' :: _ => some ('=' :: letters ++ '(' :: inner ++ [')'])
          | _ => none
      | _ => none
  | _ => none

/-- `/=([A-Z0-9+\-*\/^()&<>=" ]+)/i` at the current position. -/
def tryFormulaRun (text : List Char) : Option (List Char) :=
  match text with
  | '=' :: rest =>
    let run := rest.takeWhile formulaChar
    if run.isEmpty then none else some ('=' :: run)
  | _ => none

/-- Left-to-right scan for the first position where `f` matches. -/
def scanFor {α : Type} (f : List Char → Option α) : List Char → Option α
  | [] => f []
  | c :: cs =>
    match f (c :: cs) with
    | some r => some r
    | none => scanFor f cs

/-- `input.match(regex1) || input.match(regex2)`, taking `match[0]`. -/
def extractFormula (text : List Char) : Option (List Char) :=
  match scanFor tryFunCall text with
  | some m => some m
  | none => scanFor tryFormulaRun text

/-! ### The per-turn dispatcher (`handleSend`) -/

/-- Executor invocations a single turn can attempt. -/
inductive TurnAction where
  | sumSel | colSum | pivot | chartA | formulaA | amountCost | nextRow
deriving DecidableEq

/-- Observable outcome of one turn: which executors were invoked (in order),
the cell writes queued on the active worksheet, and whether the turn fell
through to the completion service (`getOpenAIResponse`). -/
structure TurnResult where
  attempted : List TurnAction
  writes : List CellWrite
  completionCalled : Bool
deriving DecidableEq

/-- One `handleSend` turn, with the spreadsheet port on the happy path (no
thrown Office.js errors; the cascade-specific claims use the oracle models
below instead).  `sel = none` models `extractDataFromSelection` returning
null.  Pivot/chart/formula executors mutate other sheets or write formulas
rather than literal values; they are recorded in `attempted` with no entry in
`writes` (which tracks literal value writes on the active sheet).
Rule 7 with a null snapshot re-reads the selection itself inside
`sumIntoNextRow`; since the port read just failed, that attempt is modelled
as failing with no writes. -/
def runTurn (text : List Char) (sel : Option Selection) : TurnResult :=
  let l := lowerChars text
  let prim : List TurnAction × List CellWrite × Bool :=
    match sel with
    | none => ([], [], false)
    | some s =>
      if rule1Pred l then
        let r := calcAndInsertSum s
        ([.sumSel], r.2, r.1)
      else if rule2Pred l then
        let cols := extractColumnsToSum l s
        if cols.isEmpty then ([], [], false)
        else
          let r := sumSpecificColumns s cols
          if r.1 then ([.colSum], r.2, true)
          else
            let r2 := calcAndInsertSum s
            ([.colSum, .sumSel], r.2 ++ r2.2, r2.1)
      else if rule3Pred l then ([.pivot], [], true)
      else if rule4Pred l then ([.chartA], [], true)
      else if rule5Pred l then
        match extractFormula text with
        | some _ => ([.formulaA], [], true)
        | none => ([], [], false)
      else ([], [], false)
  let ovl : List TurnAction × List CellWrite × Bool :=
    match sel with
    | some s =>
      if rule6Pred l then
        let r := amountCostOverlay s
        ([.amountCost], r.2, r.1)
      else if rule7Pred l then
        let r := sumIntoNextRow s
        ([.nextRow], r.2, r.1)
      else ([], [], false)
    | none =>
      if rule7Pred l then ([.nextRow], [], false)
      else ([], [], false)
  { attempted := prim.1 ++ ovl.1
    writes := prim.2.1 ++ ovl.2.1
    completionCalled := !(prim.2.2 || ovl.2.2) }

/-! ### Worksheet-creation cascade (`createWorksheet`, lines 697–759) -/

/-- The strategies of the worksheet-creation cascade, in source order. -/
inductive WsStrategy where
  | reuse | direct | suffixed | positional
deriving DecidableEq

/-- The observable result of a successful worksheet creation: the sheet's
name and whether `activate()` was called on it before returning. -/
structure WsSheet where
  name : String
  activated : Bool
deriving DecidableEq

/-- `createWorksheet` with explicit failure oracles: `t1` = the first attempt
(reuse-or-create with the requested name) throws, `t2` = the
timestamp-suffixed creation throws, `t3` = the position-0 insertion throws.
Returns the strategies attempted in order and the created sheet (none iff
all attempts threw).  Whatever strategy succeeds, the sheet is activated
before returning. -/
def createWorksheetM (existing : List String) (name ts : String)
    (t1 t2 t3 : Bool) : List WsStrategy × Option WsSheet :=
  let s1 : WsStrategy := if existing.contains name then .reuse else .direct
  if !t1 then ([s1], some ⟨name, true⟩)
  else if !t2 then ([s1, .suffixed], some ⟨name ++ "_" ++ ts, true⟩)
  else if !t3 then ([s1, .suffixed, .positional], some ⟨name, true⟩)
  else ([s1, .suffixed, .positional], none)

/-! ### Pivot-table fallback cascade (`createPivotTable`, lines 75–269) -/

/-- Cell `(r, c)` of a grid, if in bounds. -/
def gridGet (g : List (List CellValue)) (r c : ℕ) : Option CellValue :=
  (g[r]?).bind fun row => row[c]?

/-- Bulk grid assignment anchored at A1 of a sheet, the port model of
`pivotSheet.getRange("A1").values = sourceRange.values`. -/
def writeGridAt (sheet : ℕ → ℕ → CellValue) (g : List (List CellValue)) :
    ℕ → ℕ → CellValue :=
  fun r c => (gridGet g r c).getD (sheet r c)

/-- Outcome of `createPivotTable`: reported success, the destination sheet's
cells, and whether the plain-table formatting of the fallback ran. -/
structure PivotOutcome where
  success : Bool
  destSheet : ℕ → ℕ → CellValue
  tableAdded : Bool

/-- `createPivotTable` abstracted over its port: `sheetCreated` is whether
the worksheet cascade produced a sheet, `pivotThrows` whether building the
pivot object throws, `fallbackThrows` whether the fallback table copy
throws.  On a pivot exception the fallback copies the raw source values to
A1 of the destination sheet and formats them as a table, still reporting
success; only a fallback exception reports failure. -/
def createPivotTableM (sheetCreated : Bool) (dest : ℕ → ℕ → CellValue)
    (source : List (List CellValue)) (pivotThrows fallbackThrows : Bool) :
    PivotOutcome :=
  if !sheetCreated then ⟨false, dest, false⟩
  else if !pivotThrows then ⟨true, dest, false⟩
  else if !fallbackThrows then ⟨true, writeGridAt dest source, true⟩
  else ⟨false, dest, false⟩

/-! ### Completion service (`getOpenAIResponse`, part_000) -/

/-- JS truthiness for an optional string (absent or empty is falsy). -/
def jsTruthy : Option String → Option String
  | some s => if s = "" then none else some s
  | none => none

/-- `getApiKey`: the environment variable if truthy, else the global config
value if truthy, else the empty string. -/
def getApiKeyM (envKey cfgKey : Option String) : String :=
  match jsTruthy envKey with
  | some k => k
  | none =>
    match jsTruthy cfgKey with
    | some k => k
    | none => ""

/-- The fields of a thrown error that `getOpenAIResponse` inspects:
`error.response?.data?.error?.message` and `error.message`. -/
structure JsError where
  responseMsg : Option String
  message : Option String

/-- `error.response?.data?.error?.message || error.message || "Failed to get AI response"`. -/
def errorText (e : JsError) : String :=
  match jsTruthy e.responseMsg with
  | some m => m
  | none =>
    match jsTruthy e.message with
    | some m => m
    | none => "Failed to get AI response"

/-- `getOpenAIResponse` at its boundary: first component is whether the
network call was attempted; second is the returned string.  A missing key
short-circuits to a fixed message; a thrown error is converted to an
`Error: ...` string; nothing propagates. -/
def getOpenAIResponseM (apiKey : String) (call : Except JsError String) :
    Bool × String :=
  if apiKey = "" then
    (false, "Error: API key configuration is missing. Please check the setup.")
  else
    match call with
    | .ok content => (true, content)
    | .error e => (true, "Error: " ++ errorText e)

/-! ## Helper lemmas -/

theorem mem_of_getElemQ {α : Type} : ∀ (l : List α) (n : ℕ) (a : α), l[n]? = some a → a ∈ l := by
  intro l
  induction l with
  | nil => intro n a h; simp at h
  | cons x t ih =>
    intro n a h
    cases n with
    | zero => simp at h; simp [h]
    | succ n2 => simp only [List.getElem?_cons_succ] at h; exact List.mem_cons_of_mem x (ih n2 a h)

theorem findIdxA_none_iff {α : Type} (p : α → Bool) :
    ∀ l : List α, findIdxA p l = none ↔ ∀ x ∈ l, p x = false := by
  intro l
  induction l with
  | nil => simp [findIdxA]
  | cons a t ih =>
    cases hp : p a
    · simp [findIdxA, hp, Option.map_eq_none', ih]
    · simp [findIdxA, hp]

theorem findIdxA_some_spec {α : Type} (p : α → Bool) :
    ∀ (l : List α) (i : ℕ), findIdxA p l = some i →
      ∃ x, l[i]? = some x ∧ p x = true ∧ ∀ j y, j < i → l[j]? = some y → p y = false := by
  intro l
  induction l with
  | nil => intro i h; simp [findIdxA] at h
  | cons a t ih =>
    intro i h
    cases hp : p a
    · simp only [findIdxA, hp, Bool.false_eq_true, if_false] at h
      rw [Option.map_eq_some'] at h
      obtain ⟨j, hj, rfl⟩ := h
      obtain ⟨x, hx, hpx, hmax⟩ := ih j hj
      refine ⟨x, by simpa using hx, hpx, ?_⟩
      intro k y hk hy
      cases k with
      | zero =>
        simp at hy
        rw [← hy]
        exact hp
      | succ k2 =>
        exact hmax k2 y (by omega) (by simpa using hy)
    · simp only [findIdxA, hp, if_true] at h
      have h0 : i = 0 := by
        cases h
        rfl
      subst h0
      exact ⟨a, by simp, hp, by intro j y hj hy; exact absurd hj (Nat.not_lt_zero j)⟩

theorem lastMatchIdx_find (p : CellValue → Bool) :
    ∀ (l : List CellValue) (i : ℕ), lastMatchIdx p l = some i →
      ∃ x, l[i]? = some x ∧ p x = true := by
  intro l
  induction l with
  | nil => intro i h; simp [lastMatchIdx] at h
  | cons a t ih =>
    intro i h
    rw [lastMatchIdx] at h
    cases hm : lastMatchIdx p t with
    | some j =>
      rw [hm] at h
      have hi : j + 1 = i := by
        cases h
        rfl
      subst hi
      obtain ⟨x, hx, hpx⟩ := ih j hm
      exact ⟨x, by simpa using hx, hpx⟩
    | none =>
      rw [hm] at h
      cases hp : p a
      · rw [hp] at h
        simp at h
      · rw [hp] at h
        simp at h
        subst h
        exact ⟨a, by simp, hp⟩

theorem lastMatchIdx_none_iff (p : CellValue → Bool) :
    ∀ l, lastMatchIdx p l = none ↔ ∀ x ∈ l, p x = false := by
  intro l
  induction l with
  | nil => simp [lastMatchIdx]
  | cons a t ih =>
    rw [lastMatchIdx]
    cases hm : lastMatchIdx p t with
    | some j =>
      simp only [iff_false_intro, reduceCtorEq]
      constructor
      · intro h
        exact absurd h (by simp)
      · intro hall
        obtain ⟨x, hx, hpx⟩ := lastMatchIdx_find p t j hm
        have := hall x (List.mem_cons_of_mem a (mem_of_getElemQ t j x hx))
        rw [this] at hpx
        exact absurd hpx (by simp)
    | none =>
      cases hp : p a
      · simp only [hp, Bool.false_eq_true, if_false]
        constructor
        · intro _ x hx
          rcases List.mem_cons.mp hx with h1 | h2
          · rw [h1]; exact hp
          · exact (ih.mp hm) x h2
        · intro _
          trivial
      · simp only [hp, if_true]
        constructor
        · intro h
          exact absurd h (by simp)
        · intro hall
          have := hall a (List.mem_cons_self a t)
          rw [this] at hp
          exact absurd hp (by simp)

theorem lastMatchIdx_spec (p : CellValue → Bool) :
    ∀ (l : List CellValue) (i : ℕ), lastMatchIdx p l = some i →
      ∃ x, l[i]? = some x ∧ p x = true ∧ ∀ j y, i < j → l[j]? = some y → p y = false := by
  intro l
  induction l with
  | nil => intro i h; simp [lastMatchIdx] at h
  | cons a t ih =>
    intro i h
    rw [lastMatchIdx] at h
    cases hm : lastMatchIdx p t with
    | some j =>
      rw [hm] at h
      have hi : j + 1 = i := by
        cases h
        rfl
      subst hi
      obtain ⟨x, hx, hpx, hmax⟩ := ih j hm
      refine ⟨x, by simpa using hx, hpx, ?_⟩
      intro k y hk hy
      cases k with
      | zero => omega
      | succ k2 => exact hmax k2 y (by omega) (by simpa using hy)
    | none =>
      rw [hm] at h
      cases hp : p a
      · rw [hp] at h
        simp at h
      · rw [hp] at h
        simp at h
        subst h
        refine ⟨a, by simp, hp, ?_⟩
        intro k y hk hy
        cases k with
        | zero => omega
        | succ k2 =>
          exact (lastMatchIdx_none_iff p t).mp hm y (mem_of_getElemQ t k2 y (by simpa using hy))

theorem foldlAddCell_join :
    ∀ (values : List (List CellValue)) (a : JsNum),
      values.foldl (fun acc row => row.foldl addCell acc) a = values.flatten.foldl addCell a := by
  intro values
  induction values with
  | nil => intro a; rfl
  | cons r t ih => intro a; simp [List.foldl_append, ih]

theorem foldlAddCell_map :
    ∀ (rows : List (List CellValue)) (col : ℕ) (a : JsNum),
      rows.foldl (fun acc row => addCell acc (row.getD col .empty)) a
        = (rows.map fun r => r.getD col .empty).foldl addCell a := by
  intro rows col
  induction rows with
  | nil => intro a; rfl
  | cons r t ih =>
    intro a
    simp only [List.foldl_cons, List.map_cons]
    exact ih _

/-! ## Claim theorems -/

/-- Claim C8: cell summation adds numbers directly, adds strings that parse
as decimals under a locale-naive parse, and contributes 0 for every other
cell; `sumCells [10, "20", "abc", null, 5.5]` has value `35.5` (the JS null
cell is the non-number, non-string case of the coercion, like `empty`); and
the whole-selection sum, the per-column sum (rows 1..) and the next-row
per-column sum (all rows) are each exactly `sumCells` of the corresponding
cell list — the same coercion throughout. -/
theorem c8_sum_coercion :
    (sumCells [.num 10, .str "20", .str "abc", .empty, .num ⟨55, 1⟩] = ⟨355, 1⟩
      ∧ jsVal ⟨355, 1⟩ = (35.5 : ℚ))
    ∧ (∀ values : List (List CellValue), calcSelectionSum values = sumCells values.flatten)
    ∧ (∀ (values : List (List CellValue)) (col : ℕ),
        colSumFromRow1 values col = sumCells ((values.drop 1).map fun r => r.getD col .empty))
    ∧ (∀ (values : List (List CellValue)) (col : ℕ),
        nextRowColSum values col = sumCells (values.map fun r => r.getD col .empty)) := by
  refine ⟨⟨by decide, by norm_num [jsVal]⟩, ?_, ?_, ?_⟩
  · intro values
    exact foldlAddCell_join values 0
  · intro values col
    exact foldlAddCell_map (values.drop 1) col 0
  · intro values col
    exact foldlAddCell_map values col 0

/-- Claim C7: column-name resolution is case-insensitive and prefers exact
equality over substring containment, returning the leftmost match of the
preferred kind, and `none` when neither matches; on headers
`["Amount", "Total Cost"]`, `"amount"` resolves to 0 and `"cost"` to 1; and a
name that fails to resolve is skipped by `sumSpecificColumns` without
aborting the action (the remaining names are processed unchanged). -/
theorem c7_resolver :
    (∀ (hs : List CellValue) (n : List Char),
      (∃ h ∈ hs, exactMatchB h n = true) →
        ∃ i h, findColumn hs n = some i ∧ hs[i]? = some h ∧ exactMatchB h n = true ∧
          ∀ j y, j < i → hs[j]? = some y → exactMatchB y n = false)
    ∧ (∀ (hs : List CellValue) (n : List Char),
      (∀ h ∈ hs, exactMatchB h n = false) → (∃ h ∈ hs, subMatchB h n = true) →
        ∃ i h, findColumn hs n = some i ∧ hs[i]? = some h ∧ subMatchB h n = true ∧
          ∀ j y, j < i → hs[j]? = some y → subMatchB y n = false)
    ∧ (∀ (hs : List CellValue) (n : List Char),
      (∀ h ∈ hs, exactMatchB h n = false ∧ subMatchB h n = false) →
        findColumn hs n = none)
    ∧ findColumn [.str "Amount", .str "Total Cost"] (chars "amount") = some 0
    ∧ findColumn [.str "Amount", .str "Total Cost"] (chars "cost") = some 1
    ∧ (∀ (s : Selection) (n : List Char) (ns : List (List Char)),
      findColumn (s.values.headD []) n = none →
        sumSpecificColumns s (n :: ns) = sumSpecificColumns s ns) := by
  refine ⟨?_, ?_, ?_, by decide, by decide, ?_⟩
  · intro hs n hex
    cases hf : findIdxA (fun h => exactMatchB h n) hs with
    | none =>
      obtain ⟨h, hmem, hh⟩ := hex
      have := (findIdxA_none_iff (fun h => exactMatchB h n) hs).mp hf h hmem
      rw [this] at hh
      exact absurd hh (by simp)
    | some i =>
      obtain ⟨x, hx, hpx, hmax⟩ := findIdxA_some_spec (fun h => exactMatchB h n) hs i hf
      exact ⟨i, x, by simp [findColumn, hf], hx, hpx, hmax⟩
  · intro hs n hall hex
    have hf1 : findIdxA (fun h => exactMatchB h n) hs = none :=
      (findIdxA_none_iff _ hs).mpr hall
    cases hf : findIdxA (fun h => subMatchB h n) hs with
    | none =>
      obtain ⟨h, hmem, hh⟩ := hex
      have := (findIdxA_none_iff (fun h => subMatchB h n) hs).mp hf h hmem
      rw [this] at hh
      exact absurd hh (by simp)
    | some i =>
      obtain ⟨x, hx, hpx, hmax⟩ := findIdxA_some_spec (fun h => subMatchB h n) hs i hf
      exact ⟨i, x, by simp [findColumn, hf1, hf], hx, hpx, hmax⟩
  · intro hs n hall
    have hf1 : findIdxA (fun h => exactMatchB h n) hs = none :=
      (findIdxA_none_iff _ hs).mpr (fun x hx => (hall x hx).1)
    have hf2 : findIdxA (fun h => subMatchB h n) hs = none :=
      (findIdxA_none_iff _ hs).mpr (fun x hx => (hall x hx).2)
    simp [findColumn, hf1, hf2]
  · intro s n ns hnone
    by_cases hlen : s.values.length ≤ 1
    · simp [sumSpecificColumns, hlen]
    · simp only [sumSpecificColumns, hlen, if_false, List.foldl_cons, hnone]

/-- Claim C7 witness: the resolver theorem applied at the concrete header row
of the claim's example. -/
theorem c7_resolver_witness :
    ∃ i h, findColumn [CellValue.str "Amount", CellValue.str "Total Cost"] (chars "amount")
        = some i ∧
      [CellValue.str "Amount", CellValue.str "Total Cost"][i]? = some h ∧
      exactMatchB h (chars "amount") = true ∧
      ∀ j y, j < i → [CellValue.str "Amount", CellValue.str "Total Cost"][j]? = some y →
        exactMatchB y (chars "amount") = false :=
  c7_resolver.1 [CellValue.str "Amount", CellValue.str "Total Cost"] (chars "amount")
    ⟨CellValue.str "Amount", by simp, by decide⟩

/-- Claim C9: the completion service fails closed — a missing (empty) API key
returns the fixed explanatory string without attempting the call; any thrown
error is converted to an `Error: `-prefixed string rather than propagating;
the function always returns a pair (never throws); and the credential lookup
yields the empty key when both sources are falsy. -/
theorem c9_fail_closed :
    ∀ (key : String) (call : Except JsError String),
      (key = "" → getOpenAIResponseM key call =
        (false, "Error: API key configuration is missing. Please check the setup."))
      ∧ (∀ e, key ≠ "" → call = .error e →
          getOpenAIResponseM key call = (true, "Error: " ++ errorText e))
      ∧ (∀ env cfg, jsTruthy env = none → jsTruthy cfg = none → getApiKeyM env cfg = "")
      ∧ (∃ attempted result, getOpenAIResponseM key call = (attempted, result)) := by
  intro key call
  refine ⟨?_, ?_, ?_, ⟨_, _, rfl⟩⟩
  · intro h
    simp [getOpenAIResponseM, h]
  · intro e hk he
    simp [getOpenAIResponseM, hk, he]
  · intro env cfg he hc
    simp [getApiKeyM, he, hc]

/-- Claim C9 witness: the fail-closed theorem applied at an empty key and at
a thrown error with a populated response message. -/
theorem c9_fail_closed_witness :
    getOpenAIResponseM "" (.ok "hi") =
      (false, "Error: API key configuration is missing. Please check the setup.")
    ∧ getOpenAIResponseM "sk-1" (.error ⟨some "quota", none⟩) =
      (true, "Error: " ++ errorText ⟨some "quota", none⟩) :=
  ⟨(c9_fail_closed "" (.ok "hi")).1 rfl,
   (c9_fail_closed "sk-1" (.error ⟨some "quota", none⟩)).2.1 ⟨some "quota", none⟩
     (by simp) rfl⟩

/-- Claim C4: in pivot-table creation, if the destination worksheet was
created and pivot construction throws while the fallback does not, the
fallback copies the source grid verbatim to A1 of the destination (every
in-bounds cell round-trips), formats it as a plain table, and the action
still reports success; the action reports failure when the fallback also
throws, and when the destination sheet could not be created; and with no
pivot exception it reports success without the fallback copy. -/
theorem c4_pivot_fallback :
    ∀ (dest : ℕ → ℕ → CellValue) (src : List (List CellValue)),
      ((createPivotTableM true dest src true false).success = true
      ∧ (createPivotTableM true dest src true false).tableAdded = true
      ∧ (∀ r c cell, gridGet src r c = some cell →
          (createPivotTableM true dest src true false).destSheet r c = cell))
      ∧ (createPivotTableM true dest src true true).success = false
      ∧ (∀ pT fT, (createPivotTableM false dest src pT fT).success = false)
      ∧ (∀ fT, (createPivotTableM true dest src false fT).success = true
          ∧ (createPivotTableM true dest src false fT).tableAdded = false) := by
  intro dest src
  refine ⟨⟨rfl, rfl, ?_⟩, rfl, ?_, ?_⟩
  · intro r c cell h
    simp [createPivotTableM, writeGridAt, h]
  · intro pT fT
    rfl
  · intro fT
    exact ⟨rfl, rfl⟩

/-- Claim C4 witness: the fallback theorem applied at a concrete 2×2 source
grid, checking the copied cell and both failure branches. -/
theorem c4_pivot_fallback_witness :
    (createPivotTableM true (fun _ _ => CellValue.empty)
      [[CellValue.str "H", CellValue.num 1], [CellValue.num 2, CellValue.num 3]]
      true false).destSheet 1 0 = CellValue.num 2
    ∧ (createPivotTableM true (fun _ _ => CellValue.empty)
      [[CellValue.str "H", CellValue.num 1], [CellValue.num 2, CellValue.num 3]]
      true true).success = false :=
  ⟨(c4_pivot_fallback (fun _ _ => CellValue.empty)
      [[CellValue.str "H", CellValue.num 1], [CellValue.num 2, CellValue.num 3]]).1.2.2
      1 0 (CellValue.num 2) (by decide),
   (c4_pivot_fallback (fun _ _ => CellValue.empty)
      [[CellValue.str "H", CellValue.num 1], [CellValue.num 2, CellValue.num 3]]).2.1⟩

/-- Claim C5: worksheet creation attempts, in order, (1) reuse-or-create
under the requested name, (2) creation under a timestamp-suffixed name,
(3) insertion at position 0; it reports failure (no sheet) only when all
three throw; the suffixed strategy is always attempted before the positional
one; and every successfully created sheet is activated before returning. -/
theorem c5_worksheet_cascade :
    ∀ (existing : List String) (name ts : String) (t1 t2 t3 : Bool),
      (t1 = false → createWorksheetM existing name ts t1 t2 t3 =
        ([if existing.contains name then .reuse else .direct], some ⟨name, true⟩))
      ∧ (t1 = true → t2 = false → createWorksheetM existing name ts t1 t2 t3 =
        ([if existing.contains name then .reuse else .direct, .suffixed],
          some ⟨name ++ "_" ++ ts, true⟩))
      ∧ (t1 = true → t2 = true → t3 = false → createWorksheetM existing name ts t1 t2 t3 =
        ([if existing.contains name then .reuse else .direct, .suffixed, .positional],
          some ⟨name, true⟩))
      ∧ (t1 = true → t2 = true → t3 = true → createWorksheetM existing name ts t1 t2 t3 =
        ([if existing.contains name then .reuse else .direct, .suffixed, .positional], none))
      ∧ (∀ sh, (createWorksheetM existing name ts t1 t2 t3).2 = some sh →
          sh.activated = true)
      ∧ (WsStrategy.positional ∈ (createWorksheetM existing name ts t1 t2 t3).1 →
          (createWorksheetM existing name ts t1 t2 t3).1 =
            [if existing.contains name then .reuse else .direct, .suffixed, .positional]) := by
  intro existing name ts t1 t2 t3
  refine ⟨?_, ?_, ?_, ?_, ?_, ?_⟩
  · intro h
    subst h
    rfl
  · intro h1 h2
    subst h1
    subst h2
    rfl
  · intro h1 h2 h3
    subst h1
    subst h2
    subst h3
    rfl
  · intro h1 h2 h3
    subst h1
    subst h2
    subst h3
    rfl
  · intro sh h
    cases t1 <;> cases t2 <;> cases t3 <;> simp [createWorksheetM] at h <;>
      (try (subst h; rfl))
  · intro hmem
    cases t1 <;> cases t2 <;> cases t3 <;>
      first
        | rfl
        | (by_cases hc : name ∈ existing <;> simp [createWorksheetM, hc] at hmem)

/-- Claim C5 witness: the cascade theorem applied with the first two
strategies forced to throw: the result is the positional-insert sheet, after
attempting the suffixed strategy, and it is activated. -/
theorem c5_worksheet_cascade_witness :
    createWorksheetM ["Sheet1"] "PivotTable" "170000" true true false =
      ([WsStrategy.direct, WsStrategy.suffixed, WsStrategy.positional],
        some ⟨"PivotTable", true⟩) :=
  (c5_worksheet_cascade ["Sheet1"] "PivotTable" "170000" true true false).2.2.1 rfl rfl rfl

/-- The end-to-end snapshot of claim C1: headers `["Date","Amount","Notes"]`
and three data rows whose Amount values are 10, 20, 30 (the Date and Notes
cells are non-numeric text), selected with its origin at A1. -/
def c1Sel : Selection :=
  ⟨[[.str "Date", .str "Amount", .str "Notes"],
    [.str "Jan", .num 10, .str "rent"],
    [.str "Feb", .num 20, .str "food"],
    [.str "Mar", .num 30, .str "misc"]], 0, 0, 4, 3⟩

/-- Claim C1 counterexample: on the input `"sum the amount column"` (with a
selection present) the classifier takes rule 1 — the generic whole-selection
sum — because rule 1's noun list contains "amount"; it does NOT produce the
named-column-sum action the claim asserts. -/
theorem c1_counterexample :
    classifyPrimary (chars "sum the amount column") true = some PrimaryAction.sumSelection
    ∧ classifyPrimary (chars "sum the amount column") true ≠ some PrimaryAction.columnSum := by
  constructor
  · decide
  · decide

/-- Claim C1 as amended: on `"sum the amount column"` with the claim's
snapshot, the turn runs the whole-selection sum (rule 1), writing the value
60 (sum of all numeric-coercible cells) with the two-decimal format into the
cell directly below the selection at the selection's FIRST column offset
(row 4, column 0 — the Date column, not the Amount column), and the
completion service is not called. -/
theorem c1_amended :
    runTurn (chars "sum the amount column") (some c1Sel) =
      ⟨[.sumSel],
        [⟨c1Sel.rowIndex + c1Sel.rowCount, c1Sel.columnIndex, ⟨60, 0⟩, true⟩], false⟩
    ∧ jsVal ⟨60, 0⟩ = (60 : ℚ) := by
  constructor
  · decide
  · norm_num [jsVal]

/-- Claim C2 counterexample: the text `"add the amount and cost to the next
row"` matches rule 7's next-row predicate, yet with a selection present
rule 7 does not fire — rule 7 is the `else if` of rule 6, and rule 6
(amount-and-cost) wins.  This refutes the claimed independence of rule 7
from rule 6. -/
theorem c2_counterexample :
    rule7Pred (lowerChars (chars "add the amount and cost to the next row")) = true
    ∧ classifyOverlay (chars "add the amount and cost to the next row") true =
        some OverlayAction.amountCost
    ∧ classifyOverlay (chars "add the amount and cost to the next row") true ≠
        some OverlayAction.nextRow := by
  refine ⟨by decide, by decide, by decide⟩

/-- Claim C2 as amended: rules 1–5 are first-match-wins (each action is
produced exactly when its predicate-with-selection holds and no earlier
one does); rule 6 fires exactly when the text contains both "amount" and
"cost" and a selection exists, independently of rules 1–5; rule 7 fires
exactly when the next-row phrase matches AND rule 6's condition does not
hold — it is rule 6's `else` branch, not an independent overlay. -/
theorem c2_amended :
    ∀ (t : List Char) (s : Bool),
      (classifyPrimary t s = some PrimaryAction.sumSelection ↔
        (rule1Pred (lowerChars t) && s) = true)
      ∧ (classifyPrimary t s = some PrimaryAction.columnSum ↔
        (!rule1Pred (lowerChars t) && (rule2Pred (lowerChars t) && s)) = true)
      ∧ (classifyPrimary t s = some PrimaryAction.pivotTable ↔
        (!rule1Pred (lowerChars t) && (!rule2Pred (lowerChars t) &&
          (rule3Pred (lowerChars t) && s))) = true)
      ∧ (classifyPrimary t s = some PrimaryAction.chartAct ↔
        (!rule1Pred (lowerChars t) && (!rule2Pred (lowerChars t) &&
          (!rule3Pred (lowerChars t) && (rule4Pred (lowerChars t) && s)))) = true)
      ∧ (classifyPrimary t s = some PrimaryAction.formulaAct ↔
        (!rule1Pred (lowerChars t) && (!rule2Pred (lowerChars t) &&
          (!rule3Pred (lowerChars t) && (!rule4Pred (lowerChars t) &&
            (rule5Pred (lowerChars t) && s))))) = true)
      ∧ (classifyOverlay t s = some OverlayAction.amountCost ↔
        (rule6Pred (lowerChars t) && s) = true)
      ∧ (classifyOverlay t s = some OverlayAction.nextRow ↔
        (!(rule6Pred (lowerChars t) && s) && rule7Pred (lowerChars t)) = true) := by
  intro t s
  simp only [classifyPrimary, classifyOverlay]
  cases h1 : rule1Pred (lowerChars t) <;>
  cases h2 : rule2Pred (lowerChars t) <;>
  cases h3 : rule3Pred (lowerChars t) <;>
  cases h4 : rule4Pred (lowerChars t) <;>
  cases h5 : rule5Pred (lowerChars t) <;>
  cases h6 : rule6Pred (lowerChars t) <;>
  cases h7 : rule7Pred (lowerChars t) <;>
  cases s <;>
  simp

/-- Claim C2 witness: the precedence theorem applied at `"sum data"` (rule 1
wins) and at `"next row"` without the amount-and-cost tokens (rule 7 fires). -/
theorem c2_amended_witness :
    classifyPrimary (chars "sum data") true = some PrimaryAction.sumSelection
    ∧ classifyOverlay (chars "next row") true = some OverlayAction.nextRow :=
  ⟨((c2_amended (chars "sum data") true).1).mpr (by decide),
   ((c2_amended (chars "next row") true).2.2.2.2.2.2).mpr (by decide)⟩

/-- Claim C3 counterexample: with a NULL snapshot the turn still attempts
rule 7's next-row action on the input `"next row"` (rule 7's condition does
not test the selection), refuting "every rule's action is skipped when the
snapshot is null"; and the amount–cost overlay — a column-indexed action —
run on a header-only (1-row) selection writes two zero sums and reports
success, refuting "reports failure without writing anything" for
selections with fewer than 2 rows. -/
theorem c3_counterexample :
    (runTurn (chars "next row") none).attempted = [TurnAction.nextRow]
    ∧ amountCostOverlay ⟨[[.str "Amount", .str "Cost"]], 0, 0, 1, 2⟩ =
        (true, [⟨1, 0, 0, true⟩, ⟨1, 1, 0, true⟩]) := by
  refine ⟨by decide, by decide⟩

/-- Claim C3 as amended: rules 1–6 construct no action when the snapshot is
null (the primary classifier yields nothing and a null-snapshot turn queues
no writes on the active sheet), but rule 7 may still be attempted — a
null-snapshot turn attempts either nothing or exactly the next-row action;
and the named-column sum (`sumSpecificColumns`) reports failure without
writing anything whenever the selection has fewer than 2 rows. -/
theorem c3_amended :
    ∀ (t : List Char) (s : Selection) (names : List (List Char)),
      (classifyPrimary t false = none)
      ∧ ((runTurn t none).writes = [])
      ∧ ((runTurn t none).attempted = []
          ∨ (runTurn t none).attempted = [TurnAction.nextRow])
      ∧ (s.values.length ≤ 1 → sumSpecificColumns s names = (false, [])) := by
  intro t s names
  refine ⟨?_, ?_, ?_, ?_⟩
  · simp [classifyPrimary]
  · cases h7 : rule7Pred (lowerChars t) <;> simp [runTurn, h7]
  · cases h7 : rule7Pred (lowerChars t) <;> simp [runTurn, h7]
  · intro h
    simp only [sumSpecificColumns, if_pos h]

/-- Claim C3 witness: the amended theorem applied at the text `"next row"`
and a header-only selection. -/
theorem c3_amended_witness :
    sumSpecificColumns ⟨[[CellValue.str "Amount"]], 0, 0, 1, 1⟩ [chars "amount"] =
      (false, [])
    ∧ classifyPrimary (chars "next row") false = none :=
  ⟨(c3_amended (chars "next row") ⟨[[CellValue.str "Amount"]], 0, 0, 1, 1⟩
      [chars "amount"]).2.2.2 (by decide),
   (c3_amended (chars "next row") ⟨[[CellValue.str "Amount"]], 0, 0, 1, 1⟩
      [chars "amount"]).1⟩

/-- A selection whose origin is NOT cell A1 (rowIndex 2, columnIndex 1), with
an Amount column of sum 1 and a Cost column of sum 2. -/
def c6Sel : Selection :=
  ⟨[[.str "Amount", .str "Cost"], [.num 1, .num 2]], 2, 1, 2, 2⟩

/-- Claim C6 counterexample: on a selection placed at rowIndex 2 /
columnIndex 1, the amount–cost overlay writes at absolute row 2
(`rowCount`) — not at row 4 (`rowIndex + rowCount`), the row immediately
below the selection — and the amount sum lands in absolute column 0, not at
the Amount column's offset within the selection (column 1). -/
theorem c6_counterexample :
    amountCostOverlay c6Sel = (true, [⟨2, 0, ⟨1, 0⟩, true⟩, ⟨2, 1, ⟨2, 0⟩, true⟩])
    ∧ (∀ w ∈ (amountCostOverlay c6Sel).2, w.row ≠ c6Sel.rowIndex + c6Sel.rowCount)
    ∧ ((amountCostOverlay c6Sel).2.headD ⟨0, 0, 0, false⟩).col ≠ c6Sel.columnIndex + 0 := by
  refine ⟨by decide, by decide, by decide⟩

/-- Claim C6 as amended: whenever the text contains both "amount" and "cost"
and a snapshot exists, the overlay resolves each name to the LAST header
containing it (case-insensitive substring) and sums rows 1.. of each
resolved column with the standard coercion.  Each sum is written with the
two-decimal format to the ABSOLUTE cell addressed by
`String.fromCharCode(65 + offset)` + `(rowCount + 1)`: for offsets 0–25 that
is cell `(rowCount, offset)` (0-based); for offsets 32–57 the lowercase
letter aliases to cell `(rowCount, offset - 32)`; for any other offset the
address is not a letter, that write throws and performs nothing.  The
overlay reports success iff at least one of the two writes succeeded.  The
written cell coincides with the cell below the selection at the column's own
offset exactly when the selection's origin is A1 (`rowIndex = 0` and
`columnIndex = 0`), not for every position of the selection. -/
theorem c6_amended :
    ∀ (s : Selection) (headers : List CellValue) (rest : List (List CellValue)) (a c : ℕ),
      s.values = headers :: rest →
      lastIdxContaining headers (chars "amount") = some a →
      lastIdxContaining headers (chars "cost") = some c →
      (a ≤ 25 → c ≤ 25 →
        amountCostOverlay s =
          (true, [⟨s.rowCount, a, colSumFromRow1 s.values a, true⟩,
                  ⟨s.rowCount, c, colSumFromRow1 s.values c, true⟩]))
      ∧ (32 ≤ a → a ≤ 57 → 32 ≤ c → c ≤ 57 →
        amountCostOverlay s =
          (true, [⟨s.rowCount, a - 32, colSumFromRow1 s.values a, true⟩,
                  ⟨s.rowCount, c - 32, colSumFromRow1 s.values c, true⟩]))
      ∧ (overlayColTarget a = none → overlayColTarget c = none →
          amountCostOverlay s = (false, []))
      ∧ ((amountCostOverlay s).1 =
          ((overlayColTarget a).isSome || (overlayColTarget c).isSome))
      ∧ (∃ h, headers[a]? = some h ∧
          containsSub (lowerChars (cellStr h)) (chars "amount") = true ∧
          ∀ j y, a < j → headers[j]? = some y →
            containsSub (lowerChars (cellStr y)) (chars "amount") = false)
      ∧ (∃ h, headers[c]? = some h ∧
          containsSub (lowerChars (cellStr h)) (chars "cost") = true ∧
          ∀ j y, c < j → headers[j]? = some y →
            containsSub (lowerChars (cellStr y)) (chars "cost") = false)
      ∧ ((s.rowCount = s.rowIndex + s.rowCount) ↔ s.rowIndex = 0)
      ∧ (∀ k : ℕ, (k = s.columnIndex + k) ↔ s.columnIndex = 0) := by
  intro s headers rest a c hv ha hc
  obtain ⟨v, ri, ci, rc, cc⟩ := s
  simp only at hv
  subst hv
  refine ⟨?_, ?_, ?_, ?_, lastMatchIdx_spec _ headers a ha,
    lastMatchIdx_spec _ headers c hc, by omega, by intro k; omega⟩
  · intro ha25 hc25
    have hta : overlayColTarget a = some a := by
      unfold overlayColTarget
      rw [if_pos ha25]
    have htc : overlayColTarget c = some c := by
      unfold overlayColTarget
      rw [if_pos hc25]
    simp [amountCostOverlay, lastIdxContaining] at ha hc ⊢
    simp [ha, hc, hta, htc]
  · intro h32a h57a h32c h57c
    have hta : overlayColTarget a = some (a - 32) := by
      unfold overlayColTarget
      rw [if_neg (by omega), if_pos ⟨h32a, h57a⟩]
    have htc : overlayColTarget c = some (c - 32) := by
      unfold overlayColTarget
      rw [if_neg (by omega), if_pos ⟨h32c, h57c⟩]
    simp [amountCostOverlay, lastIdxContaining] at ha hc ⊢
    simp [ha, hc, hta, htc]
  · intro hna hnc
    simp [amountCostOverlay, lastIdxContaining] at ha hc ⊢
    simp [ha, hc, hna, hnc]
  · cases hta : overlayColTarget a <;> cases htc : overlayColTarget c <;>
      (simp [amountCostOverlay, lastIdxContaining] at ha hc ⊢; simp [ha, hc, hta, htc])

/-- A selection with its origin at A1, for the amended-C6 witness. -/
def c6SelA1 : Selection :=
  ⟨[[.str "Amount", .str "Cost"], [.num 3, .num 4]], 0, 0, 2, 2⟩

/-- Claim C6 witness: the amended theorem applied at an A1-anchored
selection with letter-addressable column offsets, where the absolute
targets coincide with the below-selection cells. -/
theorem c6_amended_witness :
    amountCostOverlay c6SelA1 =
      (true, [⟨2, 0, colSumFromRow1 c6SelA1.values 0, true⟩,
              ⟨2, 1, colSumFromRow1 c6SelA1.values 1, true⟩]) :=
  (c6_amended c6SelA1 [.str "Amount", .str "Cost"] [[.num 3, .num 4]] 0 1 rfl
    (by decide) (by decide)).1 (by omega) (by omega)

/-- Claim C10: `sumIntoNextRow` writes only into the single row directly
below the selection (`rowIndex + rowCount`); a column whose cells sum to
exactly 0 (for example an all-text column) gets no write at its target cell;
and every column with a nonzero sum gets exactly its sum written at its own
offset with the two-decimal format. -/
theorem c10_next_row_frame :
    ∀ (s : Selection) (r0 : List CellValue) (rest : List (List CellValue)),
      s.values = r0 :: rest →
      (∀ w ∈ (sumIntoNextRow s).2, w.row = s.rowIndex + s.rowCount)
      ∧ (∀ c, jsVal (nextRowColSum s.values c) = 0 →
          ∀ w ∈ (sumIntoNextRow s).2, w.col ≠ s.columnIndex + c)
      ∧ (∀ c, c < r0.length → jsVal (nextRowColSum s.values c) ≠ 0 →
          (⟨s.rowIndex + s.rowCount, s.columnIndex + c,
            nextRowColSum s.values c, true⟩ : CellWrite) ∈ (sumIntoNextRow s).2) := by
  intro s r0 rest hv
  obtain ⟨v, ri, ci, rc, cc⟩ := s
  simp only at hv
  subst hv
  have hw : (sumIntoNextRow ⟨r0 :: rest, ri, ci, rc, cc⟩).2 =
      (List.range r0.length).filterMap fun c =>
        if jsIsZero (nextRowColSum (r0 :: rest) c) then none
        else some ⟨ri + rc, ci + c, nextRowColSum (r0 :: rest) c, true⟩ := rfl
  refine ⟨?_, ?_, ?_⟩
  · intro w hwmem
    rw [hw, List.mem_filterMap] at hwmem
    obtain ⟨c, _, hc⟩ := hwmem
    by_cases hz : jsIsZero (nextRowColSum (r0 :: rest) c)
    · rw [if_pos hz] at hc
      exact absurd hc (by simp)
    · rw [if_neg hz] at hc
      cases hc
      rfl
  · intro c hzero w hwmem
    rw [hw, List.mem_filterMap] at hwmem
    obtain ⟨c2, _, hc2⟩ := hwmem
    by_cases hz : jsIsZero (nextRowColSum (r0 :: rest) c2)
    · rw [if_pos hz] at hc2
      exact absurd hc2 (by simp)
    · rw [if_neg hz] at hc2
      cases hc2
      intro heq
      simp only at heq
      have hcc : c2 = c := by omega
      subst hcc
      exact hz ((jsIsZero_iff _).mpr hzero)
  · intro c hlt hne
    rw [hw, List.mem_filterMap]
    refine ⟨c, List.mem_range.mpr hlt, ?_⟩
    have hz : ¬(jsIsZero (nextRowColSum (r0 :: rest) c) = true) := by
      intro hb
      exact hne ((jsIsZero_iff _).mp hb)
    rw [if_neg hz]

/-- The selection for the C10 witness: column 0 sums to 1, column 1 (all
text) sums to 0; the target row is 5 + 2 = 7. -/
def c10Sel : Selection :=
  ⟨[[.str "A", .str "B"], [.num 1, .str "t"]], 5, 3, 2, 2⟩

/-- Claim C10 witness: the frame theorem applied at a concrete selection —
the nonzero column's write is present and every write lands in row 7. -/
theorem c10_next_row_frame_witness :
    (⟨7, 3, nextRowColSum c10Sel.values 0, true⟩ : CellWrite) ∈ (sumIntoNextRow c10Sel).2
    ∧ ∀ w ∈ (sumIntoNextRow c10Sel).2, w.row = 7 := by
  have h := c10_next_row_frame c10Sel [.str "A", .str "B"] [[.num 1, .str "t"]] rfl
  constructor
  · have hv : nextRowColSum c10Sel.values 0 = ⟨1, 0⟩ := by decide
    exact h.2.2 0 (by decide) (by rw [hv]; norm_num [jsVal])
  · intro w hwmem
    exact h.1 w hwmem
